import Mathlib

/-!
Verification development for the dc-bus-delay-tracker repository.

The collection-and-aggregation pipeline (a daily Python Lambda) is not part
of the checked-in sources; following the specification document, its data
model and operations are modelled here from the spec's own words.  The
front-end JavaScript (`site/js/app.js`, `site/js/map.js`, the DataService
module) is embedded directly from the source files.

All numeric quantities (schedule deviations in minutes, percentages) are
modelled as rationals.
-/

namespace DCBus

/-- Modelled from the spec: the on-time band (§4.4, §8): an observation is
on time exactly when its schedule deviation lies in the closed interval
[−2, +5] minutes (early tolerance 2 minutes, late tolerance 5 minutes). -/
def onTime (deviation : ℚ) : Bool :=
  decide (-2 ≤ deviation ∧ deviation ≤ 5)

/-- Rounding to `places` decimal digits, used for reported percentages
(one decimal, per the spec scenario pct_on_time = 66.7) and average delays
(two decimals, per avg_delay = 2.67): round-half-up via `round`. -/
def roundDec (places : ℕ) (q : ℚ) : ℚ :=
  ((round (q * (10 : ℚ) ^ places) : ℤ) : ℚ) / (10 : ℚ) ^ places

/-- Modelled from the spec: an Aggregate Record (§3): sample count,
on-time count, on-time percentage (absent when the partition is empty),
average deviation (absent when empty), and the historical flag. -/
structure AggregateRecord where
  sample_count : ℕ
  on_time_count : ℕ
  pct_on_time : Option ℚ
  avg_delay : Option ℚ
  has_historical : Bool
deriving Repr, DecidableEq

/-- Modelled from the spec: the Window Aggregator's per-partition
computation (§4.4): given the deviations of one partition's observations,
`on_time = count(deviation ∈ [−2, +5])`, `pct_on_time = 100 × on_time /
sample_count` (null if `sample_count = 0`), `avg_delay = mean(deviation)`. -/
def aggregateOne (devs : List ℚ) : AggregateRecord :=
  let n := devs.length
  let k := (devs.filter (fun d => onTime d)).length
  { sample_count := n
    on_time_count := k
    pct_on_time := if n = 0 then none else some (roundDec 1 (100 * k / n))
    avg_delay := if n = 0 then none else some (roundDec 2 (devs.sum / n))
    has_historical := false }

/-- Modelled from the spec: one step of the ray-casting test (§4.1): the
horizontal ray from `p` to +infinity crosses the edge from `a` to `b` when
the edge straddles the ray's height and the crossing point is strictly to
the right of `p`.  Coordinates are `(longitude, latitude)` pairs. -/
def edgeCrosses (p a b : ℚ × ℚ) : Bool :=
  (decide (a.2 > p.2) != decide (b.2 > p.2)) &&
  decide (p.1 < (b.1 - a.1) * (p.2 - a.2) / (b.2 - a.2) + a.1)

/-- The edges of a closed ring: consecutive vertex pairs, wrapping from the
last vertex back to the first. -/
def ringEdges (ring : List (ℚ × ℚ)) : List ((ℚ × ℚ) × (ℚ × ℚ)) :=
  ring.zip (ring.rotate 1)

/-- Modelled from the spec: ray casting (§4.1): count edge crossings of a
horizontal ray from the point to +infinity; an odd crossing count means the
point is inside the ring. -/
def insideRing (ring : List (ℚ × ℚ)) (p : ℚ × ℚ) : Bool :=
  decide (((ringEdges ring).filter (fun e => edgeCrosses p e.1 e.2)).length % 2 = 1)

/-- Modelled from the spec: `classify(longitude, latitude, regions) →
RegionId | unassigned` (§4.1): a point is assigned to the first region whose
ring contains it; `none` models "unassigned". -/
def classify (regions : List (String × List (ℚ × ℚ))) (p : ℚ × ℚ) : Option String :=
  (regions.find? (fun r => insideRing r.2 p)).map Prod.fst

/-- The unit-square ring used by the spec's geometry scenario (§8). -/
def unitSquare : List (ℚ × ℚ) := [(0, 0), (1, 0), (1, 1), (0, 1)]

/-- Modelled from the spec: an Observation (§3): vehicle id, route id,
coordinates, signed schedule deviation in minutes. -/
structure Observation where
  vehicle_id : String
  route_id : String
  lon : ℚ
  lat : ℚ
  deviation : ℚ
deriving Repr, DecidableEq

/-- The Region Assignment relation (§3): a pure function of the
observation's coordinates and the region set. -/
def assignRegion (regions : List (String × List (ℚ × ℚ))) (o : Observation) :
    Option String :=
  classify regions (o.lon, o.lat)

/-- Per-region sample count: the number of observations of `obs` assigned
to region `rid`. -/
def regionSampleCount (regions : List (String × List (ℚ × ℚ)))
    (obs : List Observation) (rid : String) : ℕ :=
  (obs.filter (fun o => assignRegion regions o = some rid)).length

/-- Count of observations assigned to no region at all. -/
def unassignedCount (regions : List (String × List (ℚ × ℚ)))
    (obs : List Observation) : ℕ :=
  (obs.filter (fun o => assignRegion regions o = none)).length

/-- Modelled from the spec: the Historical Merger (§4.5):
`merge(window, liveAggregate, historicalMonthlies)`.  If the live store
does not cover the full window length, the reported percentage is the
system-wide historical monthly average over the equivalent span and
`has_historical = true`; with full coverage the live aggregate is returned
unchanged with `has_historical = false`.  `windowDays` is the window
length and `coveredDays` the span of retained live data. -/
def merge (windowDays coveredDays : ℕ) (live : AggregateRecord)
    (monthlies : List ℚ) : AggregateRecord :=
  if coveredDays < windowDays then
    { live with
      pct_on_time :=
        if monthlies.length = 0 then none
        else some (monthlies.sum / monthlies.length)
      has_historical := true }
  else
    { live with has_historical := false }

/-- Modelled from the spec: outcome of one upstream fetch attempt (§4.2,
§7): either an `UpstreamError` or a batch of normalized observations. -/
inductive FetchOutcome where
  | failure
  | success (batch : List Observation)
deriving Repr

/-- The first successful fetch among the bounded retry attempts, if any. -/
def firstSuccess : List FetchOutcome → Option (List Observation)
  | [] => none
  | FetchOutcome.failure :: rest => firstSuccess rest
  | FetchOutcome.success batch :: _ => some batch

/-- Modelled from the spec: the Observation Store's replace-by-day append
(§4.3): re-running for the same calendar day overwrites that day's prior
snapshot rather than duplicating it. -/
def appendDay (store : List (ℕ × List Observation)) (day : ℕ)
    (obs : List Observation) : List (ℕ × List Observation) :=
  (day, obs) :: store.filter (fun e => e.1 ≠ day)

/-- Modelled from the spec: `readRange(startDay, endDay)` (§4.3): all
observations of retained days intersecting the range; missing days are
simply absent. -/
def readRange (store : List (ℕ × List Observation)) (startDay endDay : ℕ) :
    List Observation :=
  ((store.filter (fun e => startDay ≤ e.1 ∧ e.1 ≤ endDay)).map Prod.snd).flatten

/-- The closed enumeration of supported window lengths in days (§3, §6):
1 day, 1 week, 1 month, 3 months, 6 months, 1 year, 5 years. -/
def periods : List ℕ := [1, 7, 30, 90, 180, 365, 1825]

/-- Modelled from the spec: the per-run artifact computation (§4.4, §4.6):
for every supported window, recomputed from scratch from the Observation
Store — one aggregate per region per window. -/
def computeArtifacts (regions : List (String × List (ℚ × ℚ)))
    (store : List (ℕ × List Observation)) (today : ℕ) :
    List (ℕ × List (String × AggregateRecord)) :=
  periods.map (fun w =>
    (w, regions.map (fun r =>
      (r.1, aggregateOne
        (((readRange store (today - w) today).filter
            (fun o => assignRegion regions o = some r.1)).map
          Observation.deviation)))))

/-- Modelled from the spec: the externally visible state of the system
(§5): the Observation Store, the currently promoted artifact set (`none`
before the first successful run), and the run-status marker. -/
structure PipelineState where
  store : List (ℕ × List Observation)
  artifacts : Option (List (ℕ × List (String × AggregateRecord)))
  last_run : Option ℕ
deriving Repr

/-- Modelled from the spec: one run of the run controller (§5, §7):
fetch with bounded retries; on total fetch failure abort before any store
mutation or artifact write; otherwise append today's classified batch
(replace-by-day), recompute every artifact from scratch, and atomically
promote the full new artifact set — unless the artifact write fails, in
which case the staged output is discarded and the prior artifacts and
`last_run` marker stay live. -/
def runPipeline (regions : List (String × List (ℚ × ℚ))) (s : PipelineState)
    (today : ℕ) (fetches : List FetchOutcome) (writeOk : Bool) :
    PipelineState :=
  match firstSuccess fetches with
  | none => s
  | some batch =>
    let store2 := appendDay s.store today batch
    let arts := computeArtifacts regions store2 today
    if writeOk then
      { store := store2, artifacts := some arts, last_run := some today }
    else
      { store := store2, artifacts := s.artifacts, last_run := s.last_run }

/-- The ward-summary artifact as the front end receives it
(`ward-summary-<period>.json`): per-ward stats plus the metadata fields
read by `app.js` (`days_covered`, `has_historical`, `source`). -/
structure WardSummaryFile where
  days_covered : ℕ
  has_historical : Bool
  source : String
deriving Repr, DecidableEq

/-- The summary-metadata object read by `renderWardDetail`.  JavaScript
property access on a missing field yields `undefined`, modelled as `none`;
a field that is present holds `some` value. -/
structure SummaryMeta where
  days_covered : ℕ
  source : String
  has_historical : Option Bool
deriving Repr, DecidableEq

/-- `app.js` `loadWardRoutes` (lines 86–89): the metadata object passed to
`UI.renderWardDetail` is built from the ward summary with exactly the
fields `days_covered` and `source`; `has_historical` is not copied, so a
read of it by the renderer yields `undefined` (`none`). -/
def loadWardRoutesMeta (wardSummary : Option WardSummaryFile) :
    Option SummaryMeta :=
  wardSummary.map (fun s =>
    { days_covered := s.days_covered
      source := s.source
      has_historical := none })

/-- `map.js` `renderWardDetail` (lines 252–258): the data-note paragraph:
shown when metadata is present and `days_covered` is truthy; the
"(includes WMATA historical estimates)" marker is appended exactly when
`summaryMeta.has_historical` is truthy. -/
def dataNoteHtml (summaryMeta : Option SummaryMeta) : String :=
  match summaryMeta with
  | none => ""
  | some m =>
    if m.days_covered ≠ 0 then
      "<p class=\"data-note\">" ++ toString m.days_covered ++ " day" ++
        (if m.days_covered ≠ 1 then ("s") else ("")) ++ " of data" ++
        (if m.has_historical = some true then
          (" (includes WMATA historical estimates)")
        else ("")) ++ "</p>"
    else ("")

/-- A JSON value, as produced by `response.json()`.  `Json.null` models the
JavaScript `null` that `loadJSON` also resolves with on failure. -/
inductive Json where
  | null
  | bool (b : Bool)
  | num (q : ℚ)
  | str (s : String)
  | arr (elems : List Json)
  | obj (fields : List (String × Json))

/-- JavaScript truthiness of a parsed JSON value: `null`, `false`, `0` and
the empty string are falsy; arrays and objects are always truthy. -/
def Json.truthy : Json → Bool
  | Json.null => false
  | Json.bool b => b
  | Json.num q => decide (q ≠ 0)
  | Json.str s => decide (s ≠ "")
  | Json.arr _ => true
  | Json.obj _ => true

/-- Outcome of the network round trip behind one `fetch(url)` call:
rejection of `fetch` itself, a non-OK HTTP status, a body that
`response.json()` fails to parse, or a successfully parsed value. -/
inductive NetOutcome where
  | netError
  | httpError (status : ℕ)
  | parseError
  | ok (j : Json)

/-- Result of one `DataService.loadJSON` call: the value the promise
resolves with (`Json.null` models resolving with `null`), the cache
contents afterwards, and whether a network fetch was issued. -/
structure LoadResult where
  value : Json
  cache : List (String × Json)
  fetched : Bool

/-- The cache-miss path of `loadJSON` (part_001 lines 15–32): non-OK
status, network error and parse error all resolve with `null`; a parsed
value is stored in the cache only when it is truthy (`if (data)`), and is
resolved with either way. -/
def fetchStep (cache : List (String × Json)) (url : String)
    (outcome : NetOutcome) : LoadResult :=
  match outcome with
  | NetOutcome.ok j =>
    if j.truthy then
      { value := j, cache := (url, j) :: cache, fetched := true }
    else
      { value := j, cache := cache, fetched := true }
  | _ => { value := Json.null, cache := cache, fetched := true }

/-- `DataService.loadJSON` (part_001 lines 10–33): `if (cache[url])`
resolves immediately with the cached value when one is present and truthy;
otherwise a fetch is issued. -/
def loadJSON (cache : List (String × Json)) (url : String)
    (outcome : NetOutcome) : LoadResult :=
  match cache.lookup url with
  | some v =>
    if v.truthy then { value := v, cache := cache, fetched := false }
    else fetchStep cache url outcome
  | none => fetchStep cache url outcome

/-- The HTML serialization of one character of a text node, as performed
by reading `innerHTML` after setting `textContent` (map.js lines 307–311):
the markup-significant characters are replaced by entities. -/
def escapeChar (c : Char) : String :=
  if c = '&' then ("&amp;")
  else if c = '<' then ("&lt;")
  else if c = '>' then ("&gt;")
  else String.singleton c

/-- Character-list form of the text-node serialization: each character is
replaced by its escape and the results are concatenated. -/
def escapeList : List Char → List Char
  | [] => []
  | c :: rest => (escapeChar c).data ++ escapeList rest

/-- `map.js` `escapeHtml` (lines 307–311): set `textContent`, read back
`innerHTML` — i.e. serialize the string as an HTML text node. -/
def escapeHtml (s : String) : String :=
  String.mk (escapeList s.data)

/-- The HTML text parser on character lists, restricted to the entities
the serializer emits: recovers the text content of the markup. -/
def unescapeList : List Char → List Char
  | [] => []
  | c :: rest =>
    if c = '&' ∧ rest.take 4 = ['a', 'm', 'p', ';'] then
      '&' :: unescapeList (rest.drop 4)
    else if c = '&' ∧ rest.take 3 = ['l', 't', ';'] then
      '<' :: unescapeList (rest.drop 3)
    else if c = '&' ∧ rest.take 3 = ['g', 't', ';'] then
      '>' :: unescapeList (rest.drop 3)
    else c :: unescapeList rest
termination_by l => l.length
decreasing_by
all_goals simp_arith [List.length_drop]

/-- Parsed text content of a markup string. -/
def textContentOf (markup : String) : String :=
  String.mk (unescapeList markup.data)

/-- `map.js` `renderWardDetail` (line 278): the route-id table cell —
the route id is inserted through `escapeHtml`. -/
def routeCellHtml (route_id : String) : String :=
  "<td class=\"route-id\">" ++ escapeHtml route_id ++ "</td>"

/-! ## Theorems -/

/-- Rounding to the nearest value is monotone. -/
theorem round_mono_q {x y : ℚ} (h : x ≤ y) : round x ≤ round y := by
  rw [round_eq, round_eq]
  exact Int.floor_le_floor (by linarith)

/-- Rounding a percentage in [0,100] to one decimal stays in [0,100]. -/
theorem roundDec_one_bounds {q : ℚ} (h0 : 0 ≤ q) (h1 : q ≤ 100) :
    0 ≤ roundDec 1 q ∧ roundDec 1 q ≤ 100 := by
  unfold roundDec
  have hlo : (0 : ℤ) ≤ round (q * (10 : ℚ) ^ 1) := by
    have h := round_mono_q (x := 0) (y := q * (10 : ℚ) ^ 1) (by nlinarith)
    simpa [round_zero] using h
  have hhi : round (q * (10 : ℚ) ^ 1) ≤ 1000 := by
    have h := round_mono_q (x := q * (10 : ℚ) ^ 1) (y := 1000) (by nlinarith)
    simpa [round_ofNat] using h
  constructor
  · apply div_nonneg _ (by norm_num)
    exact_mod_cast hlo
  · rw [div_le_iff₀ (by norm_num)]
    calc ((round (q * (10 : ℚ) ^ 1) : ℤ) : ℚ)
        ≤ ((1000 : ℤ) : ℚ) := by exact_mod_cast hhi
      _ = 100 * (10 : ℚ) ^ 1 := by norm_num

/-- C1: for every Aggregate Record with a nonempty partition,
`pct_on_time` is exactly `100 × on_time_count / sample_count` rounded to
one decimal and lies in [0,100]; an empty partition reports `none`; and
the spec scenario with deviations [−1, 3, 6] yields `on_time_count = 2`,
`pct_on_time = 66.7` and `avg_delay = 2.67`. -/
theorem aggregate_pct_on_time_sound :
    (∀ devs : List ℚ, devs ≠ [] →
      (aggregateOne devs).pct_on_time
          = some (roundDec 1 ((100 * (aggregateOne devs).on_time_count : ℚ) /
              (aggregateOne devs).sample_count))
        ∧ ∀ p : ℚ, (aggregateOne devs).pct_on_time = some p → 0 ≤ p ∧ p ≤ 100)
    ∧ (∀ devs : List ℚ, (aggregateOne devs).sample_count = 0 →
        (aggregateOne devs).pct_on_time = none)
    ∧ (aggregateOne [-1, 3, 6]).on_time_count = 2
    ∧ (aggregateOne [-1, 3, 6]).pct_on_time = some (667 / 10)
    ∧ (aggregateOne [-1, 3, 6]).avg_delay = some (267 / 100) := by
  refine ⟨?_, ?_, ?_, ?_, ?_⟩
  · intro devs hne
    have hn : devs.length ≠ 0 := by simpa using hne
    constructor
    · simp [aggregateOne, hn]
    · intro p hp
      simp only [aggregateOne, if_neg hn, Option.some.injEq] at hp
      subst hp
      have hk : (devs.filter (fun d => onTime d)).length ≤ devs.length :=
        List.length_filter_le _ _
      have hnpos : (0 : ℚ) < devs.length := by
        exact_mod_cast Nat.pos_of_ne_zero hn
      apply roundDec_one_bounds
      · positivity
      · rw [div_le_iff₀ hnpos]
        have hkq : ((devs.filter (fun d => onTime d)).length : ℚ)
            ≤ (devs.length : ℚ) := by exact_mod_cast hk
        nlinarith
  · intro devs h0
    have hn : devs.length = 0 := h0
    simp [aggregateOne, hn]
  · decide
  · show (if (3 : ℕ) = 0 then none else some (roundDec 1 (100 * 2 / 3)))
        = some (667 / 10)
    rw [if_neg (by norm_num)]
    unfold roundDec
    norm_num
    rw [round_eq]
    norm_num [Int.floor_eq_iff]
  · have hsum : ([-1, 3, 6] : List ℚ).sum = 8 := by norm_num
    show (if (3 : ℕ) = 0 then none
        else some (roundDec 2 (([-1, 3, 6] : List ℚ).sum / ((3 : ℕ) : ℚ))))
        = some (267 / 100)
    rw [hsum, if_neg (by norm_num)]
    unfold roundDec
    norm_num
    rw [round_eq]
    norm_num [Int.floor_eq_iff]

/-- C1 witness: the general part of `aggregate_pct_on_time_sound`
instantiated at the concrete partition [0]. -/
theorem aggregate_pct_on_time_sound_witness :
    (aggregateOne [0]).pct_on_time
        = some (roundDec 1 ((100 * (aggregateOne [0]).on_time_count : ℚ) /
            (aggregateOne [0]).sample_count)) :=
  (aggregate_pct_on_time_sound.1 [0] (by simp)).1

/-- C3: an observation is on time exactly when its deviation lies in the
closed band [−2, +5] minutes; in particular −2.0 is on time, −2.01 is
not, +5.0 is on time, +5.01 is not. -/
theorem onTime_band_boundary :
    (∀ d : ℚ, onTime d = true ↔ -2 ≤ d ∧ d ≤ 5)
    ∧ onTime (-2) = true
    ∧ onTime (-201 / 100) = false
    ∧ onTime 5 = true
    ∧ onTime (501 / 100) = false := by
  refine ⟨?_, ?_, ?_, ?_, ?_⟩
  · intro d
    simp [onTime]
  · simp only [onTime, decide_eq_true_eq]
    norm_num
  · simp only [onTime, decide_eq_false_iff_not]
    norm_num
  · simp only [onTime, decide_eq_true_eq]
    norm_num
  · simp only [onTime, decide_eq_false_iff_not]
    norm_num

/-- C3 witness: the band characterization applied at deviation 3. -/
theorem onTime_band_boundary_witness : onTime 3 = true :=
  (onTime_band_boundary.1 3).mpr (by decide)

/-- C2 counterexample: the point (0, 1/2) lies exactly on the left edge of
the unit square — the edge from vertex (0, 1) to vertex (0, 0), with equal
longitudes and latitude between the endpoints — yet `classify` assigns it
to the region rather than reporting it outside. -/
theorem classify_edge_point_inside :
    (((0 : ℚ), (1 : ℚ)), ((0 : ℚ), (0 : ℚ))) ∈ ringEdges unitSquare
    ∧ (0 : ℚ) ≤ 1 / 2 ∧ (1 / 2 : ℚ) ≤ 1
    ∧ classify [(("A"), unitSquare)] (0, 1 / 2) = some ("A") := by
  refine ⟨by decide, by norm_num, by norm_num, ?_⟩
  norm_num [classify, List.find?, insideRing, unitSquare, ringEdges,
    List.rotate, edgeCrosses, List.filter]

/-- C2 (amended): a point whose ray-cast crossing count is odd for exactly
one region's ring is classified to that region; a point inside no ring is
unassigned; classification is first-match deterministic.  The unit-square
scenario holds: (0.5, 0.5) is inside and (1.5, 0.5) is outside; edge
points are resolved deterministically by the crossing convention, with the
right edge point (1, 0.5) falling outside (while the left edge point falls
inside, see the counterexample). -/
theorem classify_first_match :
    (∀ (regions : List (String × List (ℚ × ℚ))) (p : ℚ × ℚ) (id : String)
        (ring : List (ℚ × ℚ)),
      (id, ring) ∈ regions → insideRing ring p = true →
      (∀ id2 ring2, (id2, ring2) ∈ regions → insideRing ring2 p = true → id2 = id) →
      classify regions p = some id)
    ∧ (∀ regions p,
        (∀ id ring, (id, ring) ∈ regions → insideRing ring p = false) →
        classify regions p = none)
    ∧ classify [(("A"), unitSquare)] (1 / 2, 1 / 2) = some ("A")
    ∧ classify [(("A"), unitSquare)] (3 / 2, 1 / 2) = none
    ∧ classify [(("A"), unitSquare)] (1, 1 / 2) = none := by
  refine ⟨?_, ?_, ?_, ?_, ?_⟩
  · intro regions p
    induction regions with
    | nil =>
      intro id ring h
      simp at h
    | cons r rs ih =>
      intro id ring hmem htrue huniq
      by_cases hr : insideRing r.2 p = true
      · have hid : r.1 = id := huniq r.1 r.2 (List.mem_cons_self r rs) hr
        have hf : List.find? (fun r => insideRing r.2 p) (r :: rs) = some r :=
          List.find?_cons_of_pos _ hr
        unfold classify
        rw [hf]
        simp [hid]
      · have hmem2 : (id, ring) ∈ rs := by
          rcases List.mem_cons.mp hmem with h | h
          · exact absurd (show insideRing r.2 p = true by rw [← h]; exact htrue) hr
          · exact h
        have hih := ih id ring hmem2 htrue
          (fun id2 ring2 h2 ht2 => huniq id2 ring2 (List.mem_cons_of_mem _ h2) ht2)
        unfold classify
        rw [List.find?_cons_of_neg (p := fun r => insideRing r.2 p) rs hr]
        exact hih
  · intro regions p hall
    have hf : regions.find? (fun r => insideRing r.2 p) = none := by
      rw [List.find?_eq_none]
      intro x hx
      simp [hall x.1 x.2 (by simpa using hx)]
    simp [classify, hf]
  · norm_num [classify, List.find?, insideRing, unitSquare, ringEdges,
      List.rotate, edgeCrosses, List.filter]
  · norm_num [classify, List.find?, insideRing, unitSquare, ringEdges,
      List.rotate, edgeCrosses, List.filter]
  · norm_num [classify, List.find?, insideRing, unitSquare, ringEdges,
      List.rotate, edgeCrosses, List.filter]

/-- C2 witness: the outside case of `classify_first_match` applied to the
unit square and the exterior point (3/2, 1/2). -/
theorem classify_first_match_witness :
    classify [(("A"), unitSquare)] (3 / 2, 1 / 2) = none := by
  apply classify_first_match.2.1
  intro id ring h
  simp only [List.mem_cons, List.not_mem_nil, or_false] at h
  rw [show ring = unitSquare from (Prod.mk.injEq _ _ _ _ ▸ h).2]
  norm_num [insideRing, unitSquare, ringEdges, List.rotate, edgeCrosses,
    List.filter]

/-- The sum of pointwise sums of two `ℕ`-valued maps over a list. -/
theorem sum_map_add_nat {α : Type} (l : List α) (f g : α → ℕ) :
    (l.map (fun x => f x + g x)).sum = (l.map f).sum + (l.map g).sum := by
  induction l with
  | nil => simp
  | cons a rest ih =>
    simp [ih]
    omega

/-- Summing an equality indicator over a duplicate-free list that contains
the target yields exactly one. -/
theorem sum_indicator_one {ids : List String} {id : String}
    (hnd : ids.Nodup) (hmem : id ∈ ids) :
    (ids.map (fun i => if id = i then (1 : ℕ) else 0)).sum = 1 := by
  induction ids with
  | nil => simp at hmem
  | cons i rest ih =>
    rcases List.mem_cons.mp hmem with h | h
    · subst h
      have hni : id ∉ rest := (List.nodup_cons.mp hnd).1
      have hz : (rest.map (fun i => if id = i then (1 : ℕ) else 0)).sum = 0 := by
        rw [List.sum_eq_zero]
        intro x hx
        simp only [List.mem_map] at hx
        obtain ⟨j, hj, hxe⟩ := hx
        have hne : id ≠ j := fun he => hni (he ▸ hj)
        simp [hne] at hxe
        omega
      simp [hz]
    · have hne : i ≠ id := fun he => (List.nodup_cons.mp hnd).1 (he ▸ h)
      have hrest := ih (List.nodup_cons.mp hnd).2 h
      simp only [List.map_cons, List.sum_cons]
      rw [if_neg (Ne.symm hne)]
      simpa using hrest

/-- A region id produced by `assignRegion` is one of the configured
region ids. -/
theorem assignRegion_mem {regions : List (String × List (ℚ × ℚ))}
    {o : Observation} {id : String} (h : assignRegion regions o = some id) :
    id ∈ regions.map Prod.fst := by
  unfold assignRegion classify at h
  obtain ⟨r, hr, hre⟩ := Option.map_eq_some'.mp h
  exact hre ▸ List.mem_map_of_mem _ (List.mem_of_find?_eq_some hr)

/-- One observation contributes exactly once: either to the region it is
assigned to, or to the unassigned count. -/
theorem assign_indicator_sum (regions : List (String × List (ℚ × ℚ)))
    (o : Observation) (hnd : (regions.map Prod.fst).Nodup) :
    (regions.map (fun r => if assignRegion regions o = some r.1 then (1 : ℕ) else 0)).sum
      + (if assignRegion regions o = none then (1 : ℕ) else 0) = 1 := by
  cases h : assignRegion regions o with
  | none =>
    have hz : (regions.map
        (fun r => if assignRegion regions o = some r.1 then (1 : ℕ) else 0)).sum = 0 := by
      rw [List.sum_eq_zero]
      intro x hx
      simp only [List.mem_map] at hx
      obtain ⟨r, _, hxe⟩ := hx
      simp [h] at hxe
      omega
    simp [hz, h]
  | some id =>
    have hmem : id ∈ regions.map Prod.fst := assignRegion_mem h
    have hcast : (regions.map
          (fun r => if (some id : Option String) = some r.1 then (1 : ℕ) else 0))
        = (regions.map Prod.fst).map (fun i => if id = i then (1 : ℕ) else 0) := by
      rw [List.map_map]
      apply List.map_congr_left
      intro r _
      simp [Function.comp]
    rw [show (if (some id : Option String) = none then (1 : ℕ) else 0) = 0 from rfl]
    rw [hcast, sum_indicator_one hnd hmem]

/-- C6: for a fixed, duplicate-free region set, the per-region sample
counts plus the unassigned count add up to the total number of
observations; unassigned observations appear in no per-region count. -/
theorem region_sample_counts_partition :
    ∀ (regions : List (String × List (ℚ × ℚ))) (obs : List Observation),
      (regions.map Prod.fst).Nodup →
      (regions.map (fun r => regionSampleCount regions obs r.1)).sum
        + unassignedCount regions obs = obs.length := by
  intro regions obs hnd
  induction obs with
  | nil => simp [regionSampleCount, unassignedCount, List.sum_eq_zero]
  | cons o os ih =>
    have hrc : ∀ rid, regionSampleCount regions (o :: os) rid
        = (if assignRegion regions o = some rid then 1 else 0)
          + regionSampleCount regions os rid := by
      intro rid
      simp only [regionSampleCount, List.filter_cons]
      by_cases hc : assignRegion regions o = some rid
      · simp [hc, Nat.add_comm]
      · simp [hc]
    have huc : unassignedCount regions (o :: os)
        = (if assignRegion regions o = none then 1 else 0)
          + unassignedCount regions os := by
      simp only [unassignedCount, List.filter_cons]
      by_cases hc : assignRegion regions o = none
      · simp [hc, Nat.add_comm]
      · simp [hc]
    have hmap : (regions.map (fun r => regionSampleCount regions (o :: os) r.1))
        = regions.map (fun r => (if assignRegion regions o = some r.1 then 1 else 0)
            + regionSampleCount regions os r.1) := by
      apply List.map_congr_left
      intro r _
      exact hrc r.1
    rw [hmap, sum_map_add_nat, huc]
    have hone := assign_indicator_sum regions o hnd
    simp only [List.length_cons]
    omega

/-- C6 witness: the partition identity applied to one region and two
observations, one inside the region and one outside every region. -/
theorem region_sample_counts_partition_witness :
    ([(("A"), unitSquare)].map
        (fun r => regionSampleCount [(("A"), unitSquare)]
          [⟨("v1"), ("R1"), 1 / 2, 1 / 2, 0⟩, ⟨("v2"), ("R2"), 3 / 2, 1 / 2, 4⟩] r.1)).sum
      + unassignedCount [(("A"), unitSquare)]
          [⟨("v1"), ("R1"), 1 / 2, 1 / 2, 0⟩, ⟨("v2"), ("R2"), 3 / 2, 1 / 2, 4⟩]
      = 2 :=
  region_sample_counts_partition [(("A"), unitSquare)]
    [⟨("v1"), ("R1"), 1 / 2, 1 / 2, 0⟩, ⟨("v2"), ("R2"), 3 / 2, 1 / 2, 4⟩]
    (by simp)

/-- C4: the Historical Merger never blends: with insufficient coverage the
record is flagged historical and carries the historical monthly average;
with full coverage the live aggregate passes through untouched and the
flag is false. -/
theorem merge_no_blend :
    ∀ (windowDays coveredDays : ℕ) (live : AggregateRecord) (monthlies : List ℚ),
      (coveredDays < windowDays →
        (merge windowDays coveredDays live monthlies).has_historical = true
        ∧ (monthlies ≠ [] →
            (merge windowDays coveredDays live monthlies).pct_on_time
              = some (monthlies.sum / monthlies.length)))
      ∧ (windowDays ≤ coveredDays →
        (merge windowDays coveredDays live monthlies).has_historical = false
        ∧ (merge windowDays coveredDays live monthlies).pct_on_time = live.pct_on_time
        ∧ (merge windowDays coveredDays live monthlies).avg_delay = live.avg_delay
        ∧ (merge windowDays coveredDays live monthlies).sample_count
            = live.sample_count) := by
  intro windowDays coveredDays live monthlies
  constructor
  · intro hlt
    constructor
    · simp [merge, hlt]
    · intro hne
      have hlen : monthlies.length ≠ 0 := by simpa using hne
      simp [merge, hlt, hlen]
  · intro hge
    have hnlt : ¬coveredDays < windowDays := not_lt.mpr hge
    refine ⟨?_, ?_, ?_, ?_⟩ <;> simp [merge, hnlt]

/-- C4 witness: a one-year window with thirty days of coverage falls back
to the historical average and is flagged. -/
theorem merge_no_blend_witness :
    (merge 365 30 ⟨0, 0, none, none, false⟩ [60]).has_historical = true :=
  ((merge_no_blend 365 30 ⟨0, 0, none, none, false⟩ [60]).1 (by decide)).1

/-- A retry sequence consisting only of failures produces no batch. -/
theorem firstSuccess_all_failures :
    ∀ fetches : List FetchOutcome,
      (∀ f ∈ fetches, f = FetchOutcome.failure) → firstSuccess fetches = none := by
  intro fetches h
  induction fetches with
  | nil => rfl
  | cons f rest ih =>
    have hf : f = FetchOutcome.failure := h f (List.mem_cons_self f rest)
    subst hf
    show firstSuccess (FetchOutcome.failure :: rest) = none
    rw [firstSuccess]
    exact ih (fun g hg => h g (List.mem_cons_of_mem _ hg))

/-- C7: a failed run is a no-op: if every fetch attempt fails the state is
returned unchanged (store, artifacts and `last_run` untouched); if the
artifact write fails, the promoted artifacts and `last_run` are unchanged;
and in every execution the visible artifact set is either the complete
prior set or the complete newly computed set, never anything partial. -/
theorem runPipeline_failed_run_no_op :
    ∀ (regions : List (String × List (ℚ × ℚ))) (s : PipelineState) (today : ℕ)
      (fetches : List FetchOutcome) (writeOk : Bool),
      ((∀ f ∈ fetches, f = FetchOutcome.failure) →
        runPipeline regions s today fetches writeOk = s)
      ∧ (writeOk = false →
          (runPipeline regions s today fetches writeOk).artifacts = s.artifacts
          ∧ (runPipeline regions s today fetches writeOk).last_run = s.last_run)
      ∧ ((runPipeline regions s today fetches writeOk).artifacts = s.artifacts
        ∨ (runPipeline regions s today fetches writeOk).artifacts
            = some (computeArtifacts regions
                (appendDay s.store today ((firstSuccess fetches).getD [])) today)) := by
  intro regions s today fetches writeOk
  refine ⟨?_, ?_, ?_⟩
  · intro hall
    simp [runPipeline, firstSuccess_all_failures fetches hall]
  · intro hw
    subst hw
    cases hfs : firstSuccess fetches with
    | none => simp [runPipeline, hfs]
    | some batch => simp [runPipeline, hfs]
  · cases hfs : firstSuccess fetches with
    | none =>
      left
      simp [runPipeline, hfs]
    | some batch =>
      cases writeOk with
      | false =>
        left
        simp [runPipeline, hfs]
      | true =>
        right
        simp [runPipeline, hfs]

/-- C7 witness: three consecutive fetch failures leave the state intact. -/
theorem runPipeline_failed_run_no_op_witness :
    runPipeline [] ⟨[], none, none⟩ 0
        [FetchOutcome.failure, FetchOutcome.failure, FetchOutcome.failure] true
      = ⟨[], none, none⟩ :=
  (runPipeline_failed_run_no_op [] ⟨[], none, none⟩ 0
    [FetchOutcome.failure, FetchOutcome.failure, FetchOutcome.failure] true).1
    (by intro f hf; simpa using hf)

/-- Replacing the same day twice in the Observation Store equals replacing
it once. -/
theorem appendDay_idem (store : List (ℕ × List Observation)) (day : ℕ)
    (obs : List Observation) :
    appendDay (appendDay store day obs) day obs = appendDay store day obs := by
  unfold appendDay
  rw [List.filter_cons]
  simp only [decide_not, decide_eq_true_eq, Bool.not_eq_true']
  rw [if_neg (by simp)]
  rw [List.filter_filter]
  congr 1
  apply List.filter_congr
  intro e _
  simp

/-- C8: the pipeline is deterministic and idempotent: a second complete
run over the same upstream batch reproduces the first run's state
exactly, and the result of a complete run depends only on the stored
history, not on previously promoted artifacts or run markers — every
window is recomputed from scratch. -/
theorem runPipeline_deterministic :
    (∀ (regions : List (String × List (ℚ × ℚ))) (s : PipelineState) (today : ℕ)
        (batch : List Observation),
      runPipeline regions
          (runPipeline regions s today [FetchOutcome.success batch] true)
          today [FetchOutcome.success batch] true
        = runPipeline regions s today [FetchOutcome.success batch] true)
    ∧ (∀ (regions : List (String × List (ℚ × ℚ))) (s1 s2 : PipelineState)
        (today : ℕ) (batch : List Observation),
      s1.store = s2.store →
      runPipeline regions s1 today [FetchOutcome.success batch] true
        = runPipeline regions s2 today [FetchOutcome.success batch] true) := by
  constructor
  · intro regions s today batch
    simp only [runPipeline, firstSuccess, if_true, appendDay_idem]
  · intro regions s1 s2 today batch hstore
    simp only [runPipeline, firstSuccess, if_true, hstore]

/-- C8 witness: two states sharing the same (empty) store produce the same
run result regardless of their previous artifacts and markers. -/
theorem runPipeline_deterministic_witness :
    runPipeline [] ⟨[], none, none⟩ 0 [FetchOutcome.success []] true
      = runPipeline [] ⟨[], some [], some 7⟩ 0 [FetchOutcome.success []] true :=
  runPipeline_deterministic.2 [] ⟨[], none, none⟩ ⟨[], some [], some 7⟩ 0 [] rfl

/-- C5: the metadata object that `app.js` `loadWardRoutes` passes to the
renderer never carries `has_historical` — the field is dropped — so the
rendered data note omits the historical-estimates marker even for a
summary with `has_historical = true`, although `renderWardDetail` would
display the marker if the flag were passed through. -/
theorem has_historical_dropped :
    (∀ ws : WardSummaryFile,
      loadWardRoutesMeta (some ws) = some ⟨ws.days_covered, ws.source, none⟩)
    ∧ loadWardRoutesMeta none = none
    ∧ dataNoteHtml (loadWardRoutesMeta (some ⟨30, true, ("wmata")⟩))
        = "<p class=\"data-note\">30 days of data</p>"
    ∧ dataNoteHtml (some ⟨30, ("wmata"), some true⟩)
        = "<p class=\"data-note\">30 days of data (includes WMATA historical estimates)</p>" :=
  ⟨fun _ => rfl, rfl, rfl, rfl⟩

/-- C9 counterexample: a successful load whose parsed value is the falsy
JSON `false` resolves with that value but is not stored in the cache, so
the next call for the same URL fetches again — refuting that every later
call after a successful load is served from the cache. -/
theorem loadJSON_falsy_success_not_cached :
    (loadJSON [] ("u") (NetOutcome.ok (Json.bool false))).value = Json.bool false
    ∧ (loadJSON [] ("u") (NetOutcome.ok (Json.bool false))).cache = []
    ∧ (loadJSON ((loadJSON [] ("u") (NetOutcome.ok (Json.bool false))).cache) ("u")
        (NetOutcome.ok (Json.bool false))).fetched = true :=
  ⟨rfl, rfl, rfl⟩

/-- C9 (amended): `loadJSON` never rejects; on a cache hit it resolves
with the cached value without fetching; on a miss it resolves with the
parsed value on success and with `null` on any failure, and stores the
result in the cache exactly when it is truthy — so falsy successes (and
all failures) leave the cache unchanged and a later call fetches again. -/
theorem loadJSON_spec :
    ∀ (cache : List (String × Json)) (url : String) (o : NetOutcome),
      (∀ v, cache.lookup url = some v → v.truthy = true →
        loadJSON cache url o = ⟨v, cache, false⟩)
      ∧ (cache.lookup url = none →
          ((∀ j, o = NetOutcome.ok j → (loadJSON cache url o).value = j)
          ∧ ((∀ j, o ≠ NetOutcome.ok j) →
              (loadJSON cache url o).value = Json.null)
          ∧ (loadJSON cache url o).fetched = true
          ∧ (∀ j, o = NetOutcome.ok j → j.truthy = true →
              (loadJSON cache url o).cache = (url, j) :: cache)
          ∧ (∀ j, o = NetOutcome.ok j → j.truthy = false →
              (loadJSON cache url o).cache = cache)
          ∧ ((∀ j, o ≠ NetOutcome.ok j) →
              (loadJSON cache url o).cache = cache))) := by
  intro cache url o
  constructor
  · intro v hv htr
    simp [loadJSON, hv, htr]
  · intro hnone
    have hl : loadJSON cache url o = fetchStep cache url o := by
      simp [loadJSON, hnone]
    refine ⟨?_, ?_, ?_, ?_, ?_, ?_⟩
    · intro j hj
      subst hj
      rw [hl]
      by_cases ht : j.truthy = true
      · simp [fetchStep, ht]
      · simp only [Bool.not_eq_true] at ht
        simp [fetchStep, ht]
    · intro hno
      rw [hl]
      cases o with
      | ok j => exact absurd rfl (hno j)
      | netError => rfl
      | httpError status => rfl
      | parseError => rfl
    · rw [hl]
      cases o with
      | ok j =>
        by_cases ht : j.truthy = true
        · simp [fetchStep, ht]
        · simp only [Bool.not_eq_true] at ht
          simp [fetchStep, ht]
      | netError => rfl
      | httpError status => rfl
      | parseError => rfl
    · intro j hj ht
      subst hj
      rw [hl]
      simp [fetchStep, ht]
    · intro j hj ht
      subst hj
      rw [hl]
      simp [fetchStep, ht]
    · intro hno
      rw [hl]
      cases o with
      | ok j => exact absurd rfl (hno j)
      | netError => rfl
      | httpError status => rfl
      | parseError => rfl

/-- C9 witness: a cache hit is served without a network fetch. -/
theorem loadJSON_spec_witness :
    loadJSON [(("u"), Json.num 1)] ("u") NetOutcome.netError
      = ⟨Json.num 1, [(("u"), Json.num 1)], false⟩ :=
  (loadJSON_spec [(("u"), Json.num 1)] ("u") NetOutcome.netError).1
    (Json.num 1) rfl rfl

/-- Unfolding `unescapeList` at an ampersand entity. -/
theorem unescapeList_amp (tail : List Char) :
    unescapeList ('&' :: 'a' :: 'm' :: 'p' :: ';' :: tail)
      = '&' :: unescapeList tail := by
  rw [unescapeList.eq_def]
  simp [List.take, List.drop]

/-- Unfolding `unescapeList` at a less-than entity. -/
theorem unescapeList_lt (tail : List Char) :
    unescapeList ('&' :: 'l' :: 't' :: ';' :: tail)
      = '<' :: unescapeList tail := by
  rw [unescapeList.eq_def]
  simp [List.take, List.drop]

/-- Unfolding `unescapeList` at a greater-than entity. -/
theorem unescapeList_gt (tail : List Char) :
    unescapeList ('&' :: 'g' :: 't' :: ';' :: tail)
      = '>' :: unescapeList tail := by
  rw [unescapeList.eq_def]
  simp [List.take, List.drop]

/-- Unfolding `unescapeList` at an ordinary character. -/
theorem unescapeList_plain {c : Char} (h1 : c ≠ '&') (tail : List Char) :
    unescapeList (c :: tail) = c :: unescapeList tail := by
  rw [unescapeList.eq_def]
  simp [h1]

/-- Unfolding `unescapeList` at the empty list. -/
theorem unescapeList_nil : unescapeList [] = [] := by
  rw [unescapeList.eq_def]

/-- Parsing undoes the text-node serialization. -/
theorem unescape_escape (l : List Char) : unescapeList (escapeList l) = l := by
  induction l with
  | nil =>
    show unescapeList [] = []
    exact unescapeList_nil
  | cons c rest ih =>
    by_cases h1 : c = '&'
    · subst h1
      have he : (escapeChar '&').data = ['&', 'a', 'm', 'p', ';'] := rfl
      simp only [escapeList, he, List.cons_append, List.nil_append]
      rw [unescapeList_amp, ih]
    · by_cases h2 : c = '<'
      · subst h2
        have he : (escapeChar '<').data = ['&', 'l', 't', ';'] := rfl
        simp only [escapeList, he, List.cons_append, List.nil_append]
        rw [unescapeList_lt, ih]
      · by_cases h3 : c = '>'
        · subst h3
          have he : (escapeChar '>').data = ['&', 'g', 't', ';'] := rfl
          simp only [escapeList, he, List.cons_append, List.nil_append]
          rw [unescapeList_gt, ih]
        · have he : (escapeChar c).data = [c] := by
            simp only [escapeChar, if_neg h1, if_neg h2, if_neg h3]
            rfl
          simp only [escapeList, he, List.cons_append, List.nil_append]
          rw [unescapeList_plain h1, ih]

/-- The serialization of a text node never contains a raw `<`. -/
theorem escapeList_no_lt (l : List Char) : ('<') ∉ escapeList l := by
  induction l with
  | nil => simp [escapeList]
  | cons c rest ih =>
    simp only [escapeList, List.mem_append]
    rintro (h | h)
    · by_cases h1 : c = '&'
      · subst h1
        revert h
        decide
      · by_cases h2 : c = '<'
        · subst h2
          revert h
          decide
        · by_cases h3 : c = '>'
          · subst h3
            revert h
            decide
          · simp only [escapeChar, if_neg h1, if_neg h2, if_neg h3] at h
            have hc : (String.singleton c).data = [c] := rfl
            rw [hc] at h
            have hlt : ('<') = c := by simpa using h
            exact h2 hlt.symm
    · exact ih h

/-- C10: `escapeHtml` round-trips — the parsed text content of the markup
it produces is exactly the input string — and its output contains no raw
`<`, so the route-id cell that `renderWardDetail` builds through it can
never open an HTML element. -/
theorem escapeHtml_roundtrip :
    (∀ s : String, textContentOf (escapeHtml s) = s)
    ∧ (∀ s : String, ('<') ∉ (escapeHtml s).data)
    ∧ (∀ rid : String,
        routeCellHtml rid = "<td class=\"route-id\">" ++ escapeHtml rid ++ "</td>") := by
  refine ⟨?_, ?_, ?_⟩
  · intro s
    show String.mk (unescapeList (escapeList s.data)) = s
    rw [unescape_escape]
  · intro s
    exact escapeList_no_lt s.data
  · intro rid
    rfl

end DCBus

